import Mathlib

/-!
Verification development for the crypto-tracker repository.

Shallow embedding of the freshness-tiered cache, fetch-gateway routes,
sync-orchestrator commit/spinner logic and the alert evaluator, translated
from:
  - src/lib/cache.ts           (client freshness store)
  - src/unnamed/part_000       (price alerts: storage + checkAlerts)
  - src/app/api/prices/route.ts (batch price gateway)
  - src/app/api/ohlc/route.ts   (per-coin candle gateway)
  - src/app/page.tsx            (sync orchestrator handlers)

JS numbers are modelled as rationals, timestamps as integers.  localStorage
and the server caches are modelled as association lists with JS upsert
semantics; storage is assumed to succeed (the code swallows storage errors,
keeping the in-memory path, which is what is embedded here).
-/

/-- The fresh TTL (milliseconds).  src/lib/cache.ts:5, prices route.ts:19 and
ohlc route.ts:12 all define FRESH_TTL = 60000. -/
def FRESH_TTL : Int := 60000

/-- The stale TTL (milliseconds).  src/lib/cache.ts:6, prices route.ts:20 and
ohlc route.ts:13 all define STALE_TTL = 900000. -/
def STALE_TTL : Int := 900000

/-- Per-coin price data, src/lib/cache.ts:9-13. -/
structure CoinPrice where
  price : ℚ
  change24h : ℚ
  change7d : ℚ
deriving DecidableEq, Repr

/-- A JS record mapping coin ids to price data. -/
abbrev PricesMap := List (String × CoinPrice)

/-- Stored batch-price cache entry, src/lib/cache.ts:15-18. -/
structure PricesCache where
  data : PricesMap
  timestamp : Int
deriving DecidableEq, Repr

/-- Stored OHLC cache entry, src/lib/cache.ts:21-24 (the same shape is used by
the server-side ohlc route cache, route.ts:6-9). -/
structure OHLCCache where
  data : List (List ℚ)
  timestamp : Int
deriving DecidableEq, Repr

/-- Result of reading the client freshness store, src/lib/cache.ts:26-31. -/
structure CacheResult (α : Type) where
  data : Option α
  isFresh : Bool
  isStale : Bool
  timestamp : Option Int
deriving DecidableEq, Repr

/-- JS record/Map upsert: assigning a key overwrites an existing binding in
place, otherwise appends.  Models `obj[k] = v`, `map.set(k, v)` and
`localStorage.setItem(k, v)`. -/
def recordSet {β : Type} (k : String) (v : β) : List (String × β) → List (String × β)
  | [] => [(k, v)]
  | (k2, v2) :: rest => if k2 = k then (k, v) :: rest else (k2, v2) :: recordSet k v rest

/-- getPricesFromCache, src/lib/cache.ts:35-59.  `stored` is the parsed
localStorage entry (absent or malformed both end in the all-null result, so
they are both modelled as `none`); `now` is Date.now(). -/
def getPricesFromCache (stored : Option PricesCache) (now : Int) :
    CacheResult PricesMap :=
  match stored with
  | none => ⟨none, false, false, none⟩
  | some cache =>
    let age := now - cache.timestamp
    if age < FRESH_TTL then ⟨some cache.data, true, false, some cache.timestamp⟩
    else if age < STALE_TTL then ⟨some cache.data, false, true, some cache.timestamp⟩
    else ⟨none, false, false, none⟩

/-- savePricesToCache, src/lib/cache.ts:61-70 (the successful-write path). -/
def savePricesToCache (prices : PricesMap) (now : Int) : Option PricesCache :=
  some ⟨prices, now⟩

/-- The localStorage key for one (coin, days) OHLC entry,
src/lib/cache.ts:80 and :105. -/
def clientOHLCKey (coinId : String) (days : Nat) : String :=
  "crypto-tracker-ohlc-" ++ coinId ++ "-" ++ toString days

/-- The client-side OHLC portion of localStorage. -/
abbrev ClientOHLCStore := List (String × OHLCCache)

/-- getOHLCFromCache, src/lib/cache.ts:74-99. -/
def getOHLCFromCache (store : ClientOHLCStore) (coinId : String) (days : Nat)
    (now : Int) : CacheResult (List (List ℚ)) :=
  match store.lookup (clientOHLCKey coinId days) with
  | none => ⟨none, false, false, none⟩
  | some cache =>
    let age := now - cache.timestamp
    if age < FRESH_TTL then ⟨some cache.data, true, false, some cache.timestamp⟩
    else if age < STALE_TTL then ⟨some cache.data, false, true, some cache.timestamp⟩
    else ⟨none, false, false, none⟩

/-- saveOHLCToCache, src/lib/cache.ts:101-111 (the successful-write path). -/
def saveOHLCToCache (store : ClientOHLCStore) (coinId : String) (days : Nat)
    (ohlc : List (List ℚ)) (now : Int) : ClientOHLCStore :=
  recordSet (clientOHLCKey coinId days) ⟨ohlc, now⟩ store

/-- Rank of a cache read in freshness order: FRESH = 2, STALE = 1,
EXPIRED/absent = 0 (the three tiers of src/lib/cache.ts:49-55). -/
def tierRank {α : Type} (r : CacheResult α) : Nat :=
  if r.isFresh then 2 else if r.isStale then 1 else 0

/-! ## Price alerts (src/unnamed/part_000) -/

/-- Alert condition, src/unnamed/part_000:9. -/
inductive AlertCond
  | above
  | below
deriving DecidableEq, Repr

/-- PriceAlert, src/unnamed/part_000:3-12.  The optional `triggered` flag is
modelled as a Bool (undefined reads as false in every use). -/
structure PriceAlert where
  id : String
  coinId : String
  coinName : String
  coinSymbol : String
  targetPrice : ℚ
  condition : AlertCond
  createdAt : Int
  triggered : Bool
deriving DecidableEq, Repr

/-- The persisted alert list (the single localStorage entry). -/
abbrev AlertStore := List PriceAlert

/-- markAlertTriggered, src/unnamed/part_000:63-69: reads the store, maps the
matching ids to triggered = true, saves. -/
def markAlertTriggered (alertId : String) (alerts : AlertStore) : AlertStore :=
  alerts.map fun a => if a.id = alertId then { a with triggered := true } else a

/-- The condition test of checkAlerts, src/unnamed/part_000:84-86:
above fires when price >= target, below when price <= target. -/
def shouldTrigger (a : PriceAlert) (coinPrice : ℚ) : Bool :=
  (a.condition == AlertCond.above && decide (a.targetPrice ≤ coinPrice)) ||
  (a.condition == AlertCond.below && decide (coinPrice ≤ a.targetPrice))

/-- The loop of checkAlerts, src/unnamed/part_000:78-92.  `l` is the list
read by the initial getAlerts() (the loop iterates over that parsed copy),
`store` the evolving persisted state.  `prices[alert.coinId]?.price` is the
lookup; `if (!coinPrice) continue` skips both an absent coin and a price of
0 (JS falsiness).  Returns (fired list, final persisted store). -/
def checkAlertsGo (prices : List (String × ℚ)) :
    List PriceAlert → AlertStore → List PriceAlert × AlertStore
  | [], store => ([], store)
  | a :: rest, store =>
    if a.triggered then checkAlertsGo prices rest store
    else
      match prices.lookup a.coinId with
      | none => checkAlertsGo prices rest store
      | some p =>
        if p = 0 then checkAlertsGo prices rest store
        else if shouldTrigger a p then
          let res := checkAlertsGo prices rest (markAlertTriggered a.id store)
          (a :: res.1, res.2)
        else checkAlertsGo prices rest store

/-- checkAlerts, src/unnamed/part_000:72-95: iterates over the alerts read at
entry while marking fired ones in the persisted store. -/
def checkAlerts (prices : List (String × ℚ)) (store : AlertStore) :
    List PriceAlert × AlertStore :=
  checkAlertsGo prices store store

/-- clearTriggeredAlerts, src/unnamed/part_000:97-102. -/
def clearTriggeredAlerts (alerts : AlertStore) : AlertStore :=
  alerts.filter fun a => !a.triggered

/-- Whether one pass of the checkAlerts loop fires a given alert: it is not
yet triggered, its coin has a nonzero price, and the condition holds. -/
def alertFires (prices : List (String × ℚ)) (a : PriceAlert) : Bool :=
  !a.triggered &&
    match prices.lookup a.coinId with
    | none => false
    | some p => !(decide (p = 0)) && shouldTrigger a p

/-- Marking a set of ids as triggered, all at once. -/
def markIds (ids : List String) (alerts : AlertStore) : AlertStore :=
  alerts.map fun a => if a.id ∈ ids then { a with triggered := true } else a

theorem markIds_nil (alerts : AlertStore) : markIds [] alerts = alerts := by
  simp [markIds]

theorem markIds_cons (i : String) (S : List String) (alerts : AlertStore) :
    markIds (i :: S) alerts = markIds S (markAlertTriggered i alerts) := by
  induction alerts with
  | nil => rfl
  | cons a rest ih =>
    simp only [markIds, markAlertTriggered, List.map_cons] at ih ⊢
    refine congrArg₂ List.cons ?_ ih
    by_cases h1 : a.id = i <;> by_cases h2 : a.id ∈ S <;>
      simp [h1, h2, List.mem_cons]

theorem checkAlertsGo_eq (prices : List (String × ℚ)) (l : List PriceAlert)
    (store : AlertStore) :
    checkAlertsGo prices l store =
      (l.filter (alertFires prices),
       markIds ((l.filter (alertFires prices)).map PriceAlert.id) store) := by
  induction l generalizing store with
  | nil => simp [checkAlertsGo, markIds_nil]
  | cons a rest ih =>
    by_cases ht : a.triggered
    · simp [checkAlertsGo, ht, alertFires, ih]
    · cases hl : prices.lookup a.coinId with
      | none => simp [checkAlertsGo, ht, hl, alertFires, ih]
      | some p =>
        by_cases hp : p = 0
        · simp [checkAlertsGo, ht, hl, hp, alertFires, ih]
        · by_cases hs : shouldTrigger a p
          · simp [checkAlertsGo, ht, hl, hp, hs, alertFires, ih, markIds_cons]
          · simp [checkAlertsGo, ht, hl, hp, hs, alertFires, ih]

theorem alertFires_triggered_false {prices : List (String × ℚ)} {a : PriceAlert}
    (h : alertFires prices a = true) : a.triggered = false := by
  simp only [alertFires, Bool.and_eq_true, Bool.not_eq_true'] at h
  exact h.1

theorem alertFires_false_of_mem_final (prices : List (String × ℚ))
    (store : AlertStore) (a : PriceAlert)
    (ha : a ∈ (checkAlerts prices store).2) : alertFires prices a = false := by
  rw [checkAlerts, checkAlertsGo_eq] at ha
  simp only [markIds, List.mem_map] at ha
  obtain ⟨b, hb, hba⟩ := ha
  by_cases hid : ∃ c ∈ List.filter (alertFires prices) store, c.id = b.id
  · rw [if_pos hid] at hba
    subst hba
    simp [alertFires]
  · rw [if_neg hid] at hba
    subst hba
    by_cases hf : alertFires prices b = true
    · exact absurd ⟨b, List.mem_filter.mpr ⟨hb, hf⟩, rfl⟩ hid
    · simpa using hf

/-- C2: alert evaluation is idempotent and fires at most once per rule:
a second run of checkAlerts on the same snapshot starting from the persisted
state of the first run fires nothing and leaves the store unchanged, and
every fired rule had triggered = false when read. -/
theorem checkAlerts_idempotent (prices : List (String × ℚ)) (store : AlertStore) :
    (checkAlerts prices (checkAlerts prices store).2).1 = [] ∧
    (checkAlerts prices (checkAlerts prices store).2).2 = (checkAlerts prices store).2 ∧
    ∀ a ∈ (checkAlerts prices store).1, a.triggered = false := by
  have hnil : ((checkAlerts prices store).2).filter (alertFires prices) = [] := by
    rw [List.filter_eq_nil_iff]
    intro a ha
    simp [alertFires_false_of_mem_final prices store a ha]
  refine ⟨?_, ?_, ?_⟩
  · conv_lhs => rw [checkAlerts, checkAlertsGo_eq]
    simp [hnil]
  · conv_lhs => rw [checkAlerts, checkAlertsGo_eq]
    simp [hnil, markIds_nil]
  · intro a ha
    rw [checkAlerts, checkAlertsGo_eq] at ha
    exact alertFires_triggered_false (List.mem_filter.mp ha).2

/-- A concrete snapshot and rule set used by witnesses. -/
def samplePrices : List (String × ℚ) := [("bitcoin", 50000)]

/-- A concrete alert rule targeting exactly the sample price. -/
def sampleAlert : PriceAlert :=
  { id := "a1", coinId := "bitcoin", coinName := "Bitcoin", coinSymbol := "BTC",
    targetPrice := 50000, condition := AlertCond.above, createdAt := 0,
    triggered := false }

/-- C2 witness: the idempotence theorem applied at a concrete snapshot and
rule set. -/
theorem checkAlerts_idempotent_witness :
    (checkAlerts samplePrices (checkAlerts samplePrices [sampleAlert]).2).1 = [] ∧
    (checkAlerts samplePrices (checkAlerts samplePrices [sampleAlert]).2).2 =
      (checkAlerts samplePrices [sampleAlert]).2 ∧
    ∀ a ∈ (checkAlerts samplePrices [sampleAlert]).1, a.triggered = false :=
  checkAlerts_idempotent samplePrices [sampleAlert]

/-- A snapshot in which bitcoin is present with price 0. -/
def zeroPriceSnapshot : List (String × ℚ) := [("bitcoin", 0)]

/-- A non-triggered BELOW rule with target 5: the claim says it fires on a
present price of 0 (0 <= 5). -/
def belowAlert : PriceAlert :=
  { id := "a2", coinId := "bitcoin", coinName := "Bitcoin", coinSymbol := "BTC",
    targetPrice := 5, condition := AlertCond.below, createdAt := 0,
    triggered := false }

/-- C6 counterexample: the symbol is present with price 0 and the BELOW rule
satisfies 0 <= targetPrice, yet checkAlerts fires nothing and leaves the rule
untouched — `if (!coinPrice) continue` (src/unnamed/part_000:82) treats a
price of 0 like an absent symbol. -/
theorem checkAlerts_zero_price_skipped :
    zeroPriceSnapshot.lookup belowAlert.coinId = some 0 ∧
    belowAlert.triggered = false ∧
    belowAlert.condition = AlertCond.below ∧
    ((0 : ℚ) ≤ belowAlert.targetPrice) ∧
    (checkAlerts zeroPriceSnapshot [belowAlert]).1 = [] ∧
    (checkAlerts zeroPriceSnapshot [belowAlert]).2 = [belowAlert] := by
  decide

/-- C6 (amended): for a non-triggered rule in the store, the rule fires iff
its symbol's price is present AND nonzero and the inclusive comparison holds
(above: price >= target, below: price <= target); a rule whose symbol is
absent is skipped. -/
theorem checkAlerts_condition_semantics (prices : List (String × ℚ))
    (store : AlertStore) (a : PriceAlert) (ha : a ∈ store)
    (ht : a.triggered = false) :
    (a ∈ (checkAlerts prices store).1 ↔
      ∃ p, prices.lookup a.coinId = some p ∧ p ≠ 0 ∧
        ((a.condition = AlertCond.above ∧ a.targetPrice ≤ p) ∨
         (a.condition = AlertCond.below ∧ p ≤ a.targetPrice))) ∧
    (prices.lookup a.coinId = none → a ∉ (checkAlerts prices store).1) := by
  have hmem : a ∈ (checkAlerts prices store).1 ↔ alertFires prices a = true := by
    rw [checkAlerts, checkAlertsGo_eq]
    simp [List.mem_filter, ha]
  constructor
  · rw [hmem]
    cases hl : prices.lookup a.coinId with
    | none => simp [alertFires, hl]
    | some p =>
      simp only [alertFires, hl, ht, Bool.not_false, Bool.true_and,
        Bool.and_eq_true, Bool.not_eq_true', decide_eq_false_iff_not,
        Option.some.injEq]
      rw [shouldTrigger]
      simp only [Bool.or_eq_true, Bool.and_eq_true, beq_iff_eq,
        decide_eq_true_eq]
      constructor
      · rintro ⟨hp, hc⟩
        exact ⟨p, rfl, hp, hc⟩
      · rintro ⟨q, hq, hp, hc⟩
        cases hq
        exact ⟨hp, hc⟩
  · intro hl
    rw [hmem]
    simp [alertFires, hl]

/-- C6 witness: the amended semantics applied at a concrete rule that targets
exactly the current (nonzero) price, which therefore fires. -/
theorem checkAlerts_condition_semantics_witness :
    sampleAlert ∈ [sampleAlert] ∧ sampleAlert.triggered = false ∧
    ((sampleAlert ∈ (checkAlerts samplePrices [sampleAlert]).1 ↔
      ∃ p, samplePrices.lookup sampleAlert.coinId = some p ∧ p ≠ 0 ∧
        ((sampleAlert.condition = AlertCond.above ∧ sampleAlert.targetPrice ≤ p) ∨
         (sampleAlert.condition = AlertCond.below ∧ p ≤ sampleAlert.targetPrice))) ∧
    (samplePrices.lookup sampleAlert.coinId = none →
      sampleAlert ∉ (checkAlerts samplePrices [sampleAlert]).1)) :=
  ⟨by decide, rfl,
    checkAlerts_condition_semantics samplePrices [sampleAlert] sampleAlert
      (by decide) rfl⟩

/-- C10: clearTriggeredAlerts keeps exactly the non-triggered rules, each
unchanged and in their original relative order (the result is a sublist of
the previous store). -/
theorem clearTriggeredAlerts_spec (store : AlertStore) :
    List.Sublist (clearTriggeredAlerts store) store ∧
    ∀ a, a ∈ clearTriggeredAlerts store ↔ a ∈ store ∧ a.triggered = false := by
  refine ⟨List.filter_sublist store, fun a => ?_⟩
  simp [clearTriggeredAlerts, List.mem_filter, Bool.not_eq_true']

/-- C3: writing at t0 with FRESH_TTL = 60000 ms and STALE_TTL = 900000 ms,
a get at age 30000 ms is FRESH with the value, at age 120000 ms STALE with
the original value, and at age 901000 ms absent — for both the price cache
and the OHLC cache. -/
theorem freshness_tier_classification (data : PricesMap)
    (odata : List (List ℚ)) (coinId : String) (days : Nat) (t0 : Int) :
    getPricesFromCache (some ⟨data, t0⟩) (t0 + 30000) =
      ⟨some data, true, false, some t0⟩ ∧
    getPricesFromCache (some ⟨data, t0⟩) (t0 + 120000) =
      ⟨some data, false, true, some t0⟩ ∧
    getPricesFromCache (some ⟨data, t0⟩) (t0 + 901000) =
      ⟨none, false, false, none⟩ ∧
    getOHLCFromCache [(clientOHLCKey coinId days, ⟨odata, t0⟩)] coinId days
      (t0 + 30000) = ⟨some odata, true, false, some t0⟩ ∧
    getOHLCFromCache [(clientOHLCKey coinId days, ⟨odata, t0⟩)] coinId days
      (t0 + 120000) = ⟨some odata, false, true, some t0⟩ ∧
    getOHLCFromCache [(clientOHLCKey coinId days, ⟨odata, t0⟩)] coinId days
      (t0 + 901000) = ⟨none, false, false, none⟩ := by
  refine ⟨?_, ?_, ?_, ?_, ?_, ?_⟩ <;>
    simp only [getPricesFromCache, getOHLCFromCache, List.lookup_cons_self,
      FRESH_TTL, STALE_TTL] <;>
    split_ifs <;> first | rfl | omega

/-- C8: with a fixed stored entry, the freshness tier only moves forward
(FRESH, then STALE, then EXPIRED/absent) as the query time increases. -/
theorem freshness_tier_monotone (stored : Option PricesCache) (t1 t2 : Int)
    (h : t1 ≤ t2) :
    tierRank (getPricesFromCache stored t2) ≤
      tierRank (getPricesFromCache stored t1) := by
  cases stored with
  | none => simp [getPricesFromCache, tierRank]
  | some c =>
    by_cases h2f : t2 - c.timestamp < FRESH_TTL
    · have h1f : t1 - c.timestamp < FRESH_TTL :=
        lt_of_le_of_lt (by omega) h2f
      simp [getPricesFromCache, h2f, h1f, tierRank]
    · by_cases h2s : t2 - c.timestamp < STALE_TTL
      · have h1s : t1 - c.timestamp < STALE_TTL :=
          lt_of_le_of_lt (by omega) h2s
        by_cases h1f : t1 - c.timestamp < FRESH_TTL
        · simp [getPricesFromCache, h2f, h2s, h1f, tierRank]
        · simp [getPricesFromCache, h2f, h2s, h1f, h1s, tierRank]
      · simp [getPricesFromCache, h2f, h2s, tierRank]

/-- C8 witness: the monotonicity theorem applied at a concrete entry and two
concrete query times (the entry is FRESH at the earlier and STALE at the
later time). -/
theorem freshness_tier_monotone_witness :
    tierRank (getPricesFromCache (some ⟨[], 0⟩) 100000) ≤
      tierRank (getPricesFromCache (some ⟨[], 0⟩) 50) :=
  freshness_tier_monotone (some ⟨[], 0⟩) 50 100000 (by norm_num)

/-! ## Fetch gateway: server routes (src/app/api/prices/route.ts and
src/app/api/ohlc/route.ts) -/

/-- Outcome of one upstream provider call: a parsed success payload, an HTTP
429 rate-limit response, or any other failure (network error, non-2xx,
malformed body: they all reach the same catch block). -/
inductive Upstream (α : Type)
  | success (payload : α)
  | rateLimited
  | failure
deriving DecidableEq, Repr

/-- One upstream coin object of the batch markets response,
src/app/api/prices/route.ts:64-69.  A missing numeric field is mapped to 0
(the ?? 0 defaults). -/
structure UpstreamCoin where
  id : String
  current_price : Option ℚ
  price_change_percentage_24h : Option ℚ
  price_change_percentage_7d_in_currency : Option ℚ
deriving DecidableEq, Repr

/-- The normalization of one coin, src/app/api/prices/route.ts:65-69. -/
def toCoinPrice (c : UpstreamCoin) : CoinPrice :=
  ⟨c.current_price.getD 0, c.price_change_percentage_24h.getD 0,
   c.price_change_percentage_7d_in_currency.getD 0⟩

/-- The transform loop of src/app/api/prices/route.ts:63-70: starts from an
empty record and upserts every coin of the response, in order. -/
def buildPrices (data : List UpstreamCoin) : PricesMap :=
  data.foldl (fun acc c => recordSet c.id (toCoinPrice c) acc) []

/-- Response of the prices route: the JSON payloads of
src/app/api/prices/route.ts:32,37,51,53,75,81,84. -/
inductive PricesResponse
  | ok (prices : PricesMap) (isStale : Bool)
  | rateLimitedErr
  | fetchFailedErr
deriving DecidableEq, Repr

/-- Response of the ohlc route, src/app/api/ohlc/route.ts:22,33,37,49,51,66,71,74. -/
inductive OHLCResponse
  | ok (ohlc : List (List ℚ)) (isStale : Bool)
  | unsupportedCoinErr
  | rateLimitedErr
  | fetchFailedErr
deriving DecidableEq, Repr

/-- What one gateway request produces: the HTTP response, the server cache
after the request, and whether the upstream provider was called (true exactly
when control reached the fetch of route.ts). -/
structure GatewayResult (ρ : Type) (κ : Type) where
  response : ρ
  cache : κ
  calledUpstream : Bool
deriving DecidableEq, Repr

/-- The try/catch block of src/app/api/prices/route.ts:41-85: call the
upstream provider; on success normalize and overwrite the cache; on a 429 or
any other failure serve the existing cache entry stale-tagged if one exists,
otherwise fail. -/
def pricesFetchBlock (cache : Option PricesCache) (now : Int)
    (upstream : Upstream (List UpstreamCoin)) :
    GatewayResult PricesResponse (Option PricesCache) :=
  match upstream with
  | Upstream.success data =>
    let prices := buildPrices data
    ⟨PricesResponse.ok prices false, some ⟨prices, now⟩, true⟩
  | Upstream.rateLimited =>
    match cache with
    | some c => ⟨PricesResponse.ok c.data true, cache, true⟩
    | none => ⟨PricesResponse.rateLimitedErr, cache, true⟩
  | Upstream.failure =>
    match cache with
    | some c => ⟨PricesResponse.ok c.data true, cache, true⟩
    | none => ⟨PricesResponse.fetchFailedErr, cache, true⟩

/-- GET of src/app/api/prices/route.ts:22-86.  `cache` is the module-level
priceCache register, `now` is Date.now() at request time (the code reads
Date.now() twice; the two reads are identified, which only matters at exact
TTL boundaries within one request). -/
def pricesGET (cache : Option PricesCache) (forceRefresh : Bool) (now : Int)
    (upstream : Upstream (List UpstreamCoin)) :
    GatewayResult PricesResponse (Option PricesCache) :=
  match cache with
  | some c =>
    if !forceRefresh then
      let age := now - c.timestamp
      if age < FRESH_TTL then ⟨PricesResponse.ok c.data false, cache, false⟩
      else if age < STALE_TTL then ⟨PricesResponse.ok c.data true, cache, false⟩
      else pricesFetchBlock cache now upstream
    else pricesFetchBlock cache now upstream
  | none => pricesFetchBlock cache now upstream

/-- The supported coin list, src/app/api/ohlc/route.ts:3. -/
def SUPPORTED_COINS : List String := ["bitcoin", "ethereum", "solana"]

/-- The server-side OHLC cache Map, keyed by the `coinId-days` string. -/
abbrev OHLCServerCache := List (String × OHLCCache)

/-- The try/catch block of src/app/api/ohlc/route.ts:41-75.  `days` stays a
query string (the route never parses it; it only appears in the cache key and
the upstream URL).  A successful upstream body that is not an array is
normalized to [] (route.ts:59), so the success payload is the normalized
array; the cache is written only when it is nonempty (route.ts:62-64). -/
def ohlcFetchBlock (cacheMap : OHLCServerCache) (cacheKey : String)
    (cached : Option OHLCCache) (now : Int)
    (upstream : Upstream (List (List ℚ))) :
    GatewayResult OHLCResponse OHLCServerCache :=
  match upstream with
  | Upstream.success data =>
    if data.length > 0 then
      ⟨OHLCResponse.ok data false, recordSet cacheKey ⟨data, now⟩ cacheMap, true⟩
    else ⟨OHLCResponse.ok data false, cacheMap, true⟩
  | Upstream.rateLimited =>
    match cached with
    | some c => ⟨OHLCResponse.ok c.data true, cacheMap, true⟩
    | none => ⟨OHLCResponse.rateLimitedErr, cacheMap, true⟩
  | Upstream.failure =>
    match cached with
    | some c => ⟨OHLCResponse.ok c.data true, cacheMap, true⟩
    | none => ⟨OHLCResponse.fetchFailedErr, cacheMap, true⟩

/-- GET of src/app/api/ohlc/route.ts:15-76, built from ohlcFetchBlock (its
try/catch block, route.ts:41-75). -/
def ohlcGET (cacheMap : OHLCServerCache) (coinId : String) (days : String)
    (forceRefresh : Bool) (now : Int) (upstream : Upstream (List (List ℚ))) :
    GatewayResult OHLCResponse OHLCServerCache :=
  if coinId ∉ SUPPORTED_COINS then
    ⟨OHLCResponse.unsupportedCoinErr, cacheMap, false⟩
  else
    let cacheKey := coinId ++ "-" ++ days
    let cached := cacheMap.lookup cacheKey
    match cached with
    | some c =>
      if !forceRefresh then
        let age := now - c.timestamp
        if age < FRESH_TTL then ⟨OHLCResponse.ok c.data false, cacheMap, false⟩
        else if age < STALE_TTL then ⟨OHLCResponse.ok c.data true, cacheMap, false⟩
        else ohlcFetchBlock cacheMap cacheKey cached now upstream
      else ohlcFetchBlock cacheMap cacheKey cached now upstream
    | none => ohlcFetchBlock cacheMap cacheKey cached now upstream

theorem pricesFetchBlock_calledUpstream (cache : Option PricesCache)
    (now : Int) (up : Upstream (List UpstreamCoin)) :
    (pricesFetchBlock cache now up).calledUpstream = true := by
  cases up <;> cases cache <;> rfl

theorem ohlcFetchBlock_calledUpstream (cacheMap : OHLCServerCache)
    (cacheKey : String) (cached : Option OHLCCache) (now : Int)
    (up : Upstream (List (List ℚ))) :
    (ohlcFetchBlock cacheMap cacheKey cached now up).calledUpstream = true := by
  cases up with
  | success data =>
    by_cases h : data.length > 0 <;> simp [ohlcFetchBlock, h]
  | rateLimited => cases cached <;> rfl
  | failure => cases cached <;> rfl

theorem pricesGET_called_eq (cache : Option PricesCache) (force : Bool)
    (now : Int) (up : Upstream (List UpstreamCoin))
    (h : (pricesGET cache force now up).calledUpstream = true) :
    pricesGET cache force now up = pricesFetchBlock cache now up := by
  cases cache with
  | none => rfl
  | some c =>
    cases force with
    | true => simp [pricesGET]
    | false =>
      by_cases h1 : now - c.timestamp < FRESH_TTL
      · exfalso; simp [pricesGET, h1] at h
      · by_cases h2 : now - c.timestamp < STALE_TTL
        · exfalso; simp [pricesGET, h1, h2] at h
        · simp [pricesGET, h1, h2]

theorem ohlcGET_called_eq (cacheMap : OHLCServerCache) (coinId days : String)
    (force : Bool) (now : Int) (up : Upstream (List (List ℚ)))
    (h : (ohlcGET cacheMap coinId days force now up).calledUpstream = true) :
    ohlcGET cacheMap coinId days force now up =
      ohlcFetchBlock cacheMap (coinId ++ "-" ++ days)
        (cacheMap.lookup (coinId ++ "-" ++ days)) now up := by
  by_cases hsup : coinId ∈ SUPPORTED_COINS
  · cases hc : cacheMap.lookup (coinId ++ "-" ++ days) with
    | none => simp [ohlcGET, hsup, hc]
    | some c =>
      cases force with
      | true => simp [ohlcGET, hsup, hc]
      | false =>
        by_cases h1 : now - c.timestamp < FRESH_TTL
        · exfalso; simp [ohlcGET, hsup, hc, h1] at h
        · by_cases h2 : now - c.timestamp < STALE_TTL
          · exfalso; simp [ohlcGET, hsup, hc, h1, h2] at h
          · simp [ohlcGET, hsup, hc, h1, h2]
  · exfalso; simp [ohlcGET, hsup] at h

/-- C7: with forceRefresh = false a FRESH shared entry is served tagged
isStale = false and a STALE one tagged isStale = true, in both cases without
calling upstream and without touching the cache; with forceRefresh = true, or
when the entry is absent or at least STALE_TTL old, the upstream provider is
called.  Stated for both the prices route and the ohlc route. -/
theorem gateway_cache_serving :
    (∀ (c : PricesCache) (now : Int) (up : Upstream (List UpstreamCoin)),
       now - c.timestamp < FRESH_TTL →
       pricesGET (some c) false now up =
         ⟨PricesResponse.ok c.data false, some c, false⟩) ∧
    (∀ (c : PricesCache) (now : Int) (up : Upstream (List UpstreamCoin)),
       FRESH_TTL ≤ now - c.timestamp → now - c.timestamp < STALE_TTL →
       pricesGET (some c) false now up =
         ⟨PricesResponse.ok c.data true, some c, false⟩) ∧
    (∀ (cache : Option PricesCache) (now : Int)
       (up : Upstream (List UpstreamCoin)),
       (pricesGET cache true now up).calledUpstream = true) ∧
    (∀ (now : Int) (up : Upstream (List UpstreamCoin)),
       (pricesGET none false now up).calledUpstream = true) ∧
    (∀ (c : PricesCache) (now : Int) (up : Upstream (List UpstreamCoin)),
       STALE_TTL ≤ now - c.timestamp →
       (pricesGET (some c) false now up).calledUpstream = true) ∧
    (∀ (cacheMap : OHLCServerCache) (coinId days : String) (c : OHLCCache)
       (now : Int) (up : Upstream (List (List ℚ))),
       coinId ∈ SUPPORTED_COINS →
       cacheMap.lookup (coinId ++ "-" ++ days) = some c →
       now - c.timestamp < FRESH_TTL →
       ohlcGET cacheMap coinId days false now up =
         ⟨OHLCResponse.ok c.data false, cacheMap, false⟩) ∧
    (∀ (cacheMap : OHLCServerCache) (coinId days : String) (c : OHLCCache)
       (now : Int) (up : Upstream (List (List ℚ))),
       coinId ∈ SUPPORTED_COINS →
       cacheMap.lookup (coinId ++ "-" ++ days) = some c →
       FRESH_TTL ≤ now - c.timestamp → now - c.timestamp < STALE_TTL →
       ohlcGET cacheMap coinId days false now up =
         ⟨OHLCResponse.ok c.data true, cacheMap, false⟩) ∧
    (∀ (cacheMap : OHLCServerCache) (coinId days : String) (now : Int)
       (up : Upstream (List (List ℚ))),
       coinId ∈ SUPPORTED_COINS →
       (ohlcGET cacheMap coinId days true now up).calledUpstream = true) ∧
    (∀ (cacheMap : OHLCServerCache) (coinId days : String) (now : Int)
       (up : Upstream (List (List ℚ))),
       coinId ∈ SUPPORTED_COINS →
       cacheMap.lookup (coinId ++ "-" ++ days) = none →
       (ohlcGET cacheMap coinId days false now up).calledUpstream = true) ∧
    (∀ (cacheMap : OHLCServerCache) (coinId days : String) (c : OHLCCache)
       (now : Int) (up : Upstream (List (List ℚ))),
       coinId ∈ SUPPORTED_COINS →
       cacheMap.lookup (coinId ++ "-" ++ days) = some c →
       STALE_TTL ≤ now - c.timestamp →
       (ohlcGET cacheMap coinId days false now up).calledUpstream = true) := by
  refine ⟨?_, ?_, ?_, ?_, ?_, ?_, ?_, ?_, ?_, ?_⟩
  · intro c now up h
    simp [pricesGET, h]
  · intro c now up hf hs
    simp [pricesGET, not_lt.mpr hf, hs]
  · intro cache now up
    cases cache <;> simp [pricesGET, pricesFetchBlock_calledUpstream]
  · intro now up
    simp [pricesGET, pricesFetchBlock_calledUpstream]
  · intro c now up h
    have h1 : ¬(now - c.timestamp < FRESH_TTL) := by
      simp only [FRESH_TTL, STALE_TTL] at *; omega
    have h2 : ¬(now - c.timestamp < STALE_TTL) := not_lt.mpr h
    simp [pricesGET, h1, h2, pricesFetchBlock_calledUpstream]
  · intro cacheMap coinId days c now up hsup hc h
    simp [ohlcGET, hsup, hc, h]
  · intro cacheMap coinId days c now up hsup hc hf hs
    simp [ohlcGET, hsup, hc, not_lt.mpr hf, hs]
  · intro cacheMap coinId days now up hsup
    cases hc : cacheMap.lookup (coinId ++ "-" ++ days) <;>
      simp [ohlcGET, hsup, hc, ohlcFetchBlock_calledUpstream]
  · intro cacheMap coinId days now up hsup hc
    simp [ohlcGET, hsup, hc, ohlcFetchBlock_calledUpstream]
  · intro cacheMap coinId days c now up hsup hc h
    have h1 : ¬(now - c.timestamp < FRESH_TTL) := by
      simp only [FRESH_TTL, STALE_TTL] at *; omega
    have h2 : ¬(now - c.timestamp < STALE_TTL) := not_lt.mpr h
    simp [ohlcGET, hsup, hc, h1, h2, ohlcFetchBlock_calledUpstream]

/-- C7 witness: a STALE prices entry (age 120000 ms) is served stale-tagged
with no upstream call, even though the upstream would have rate-limited. -/
theorem gateway_cache_serving_witness :
    pricesGET (some ⟨[], 0⟩) false 120000 Upstream.rateLimited =
      ⟨PricesResponse.ok [] true, some ⟨[], 0⟩, false⟩ :=
  gateway_cache_serving.2.1 ⟨[], 0⟩ 120000 Upstream.rateLimited
    (by norm_num [FRESH_TTL]) (by norm_num [STALE_TTL])

/-- C4: whenever an upstream call fails (rate limit or any other failure),
a gateway request that reached the upstream serves the existing cache entry
tagged isStale = true if any entry exists — however old — and only fails
(429 for rate limit, 500 otherwise) when no entry exists.  Stated for both
routes. -/
theorem gateway_failure_fallback :
    (∀ (cache : Option PricesCache) (force : Bool) (now : Int)
       (up : Upstream (List UpstreamCoin)),
       (up = Upstream.rateLimited ∨ up = Upstream.failure) →
       (pricesGET cache force now up).calledUpstream = true →
       (∀ c, cache = some c →
          (pricesGET cache force now up).response = PricesResponse.ok c.data true) ∧
       (cache = none → up = Upstream.rateLimited →
          (pricesGET cache force now up).response = PricesResponse.rateLimitedErr) ∧
       (cache = none → up = Upstream.failure →
          (pricesGET cache force now up).response = PricesResponse.fetchFailedErr)) ∧
    (∀ (cacheMap : OHLCServerCache) (coinId days : String) (force : Bool)
       (now : Int) (up : Upstream (List (List ℚ))),
       (up = Upstream.rateLimited ∨ up = Upstream.failure) →
       (ohlcGET cacheMap coinId days force now up).calledUpstream = true →
       (∀ c, cacheMap.lookup (coinId ++ "-" ++ days) = some c →
          (ohlcGET cacheMap coinId days force now up).response =
            OHLCResponse.ok c.data true) ∧
       (cacheMap.lookup (coinId ++ "-" ++ days) = none →
          up = Upstream.rateLimited →
          (ohlcGET cacheMap coinId days force now up).response =
            OHLCResponse.rateLimitedErr) ∧
       (cacheMap.lookup (coinId ++ "-" ++ days) = none → up = Upstream.failure →
          (ohlcGET cacheMap coinId days force now up).response =
            OHLCResponse.fetchFailedErr)) := by
  constructor
  · intro cache force now up hup hcall
    rw [pricesGET_called_eq cache force now up hcall]
    refine ⟨?_, ?_, ?_⟩
    · rintro c rfl
      rcases hup with rfl | rfl <;> rfl
    · rintro rfl rfl; rfl
    · rintro rfl rfl; rfl
  · intro cacheMap coinId days force now up hup hcall
    rw [ohlcGET_called_eq cacheMap coinId days force now up hcall]
    refine ⟨?_, ?_, ?_⟩
    · intro c hc
      rw [hc]
      rcases hup with rfl | rfl <;> rfl
    · intro hc hup2
      rw [hc, hup2]
      rfl
    · intro hc hup2
      rw [hc, hup2]
      rfl

/-- C4 witness: a rate-limited upstream call with an entry 1000000 ms old
(far past STALE_TTL) is absorbed into a stale-tagged response. -/
theorem gateway_failure_fallback_witness :
    (pricesGET (some ⟨[], 0⟩) false 1000000 Upstream.rateLimited).calledUpstream
      = true ∧
    (pricesGET (some ⟨[], 0⟩) false 1000000 Upstream.rateLimited).response =
      PricesResponse.ok [] true :=
  ⟨rfl,
    (gateway_failure_fallback.1 (some ⟨[], 0⟩) false 1000000
        Upstream.rateLimited (Or.inl rfl) rfl).1 ⟨[], 0⟩ rfl⟩

theorem lookup_recordSet {β : Type} (k s : String) (v : β)
    (m : List (String × β)) :
    (recordSet k v m).lookup s = if s = k then some v else m.lookup s := by
  induction m with
  | nil =>
    by_cases h : s = k
    · subst h
      simp [recordSet, List.lookup]
    · have hb : (s == k) = false := beq_eq_false_iff_ne.mpr h
      simp [recordSet, List.lookup, h, hb]
  | cons kv rest ih =>
    obtain ⟨k2, v2⟩ := kv
    by_cases hk : k2 = k
    · subst hk
      by_cases hs : s = k2
      · subst hs
        simp [recordSet, List.lookup]
      · have hb : (s == k2) = false := beq_eq_false_iff_ne.mpr hs
        simp [recordSet, List.lookup, hs, hb]
    · by_cases hs : s = k2
      · subst hs
        have hsk : ¬(s = k) := hk
        simp [recordSet, hk, List.lookup, hsk]
      · have hb : (s == k2) = false := beq_eq_false_iff_ne.mpr hs
        simp [recordSet, hk, List.lookup, hs, hb, ih]

theorem buildPrices_foldl_lookup (data : List UpstreamCoin) :
    ∀ (acc : PricesMap) (s : String),
      (((data.foldl (fun acc c => recordSet c.id (toCoinPrice c) acc)
          acc).lookup s).isSome = true) ↔
        (s ∈ data.map UpstreamCoin.id ∨ (acc.lookup s).isSome = true) := by
  induction data with
  | nil => intro acc s; simp
  | cons c rest ih =>
    intro acc s
    simp only [List.foldl_cons, List.map_cons, List.mem_cons]
    rw [ih, lookup_recordSet]
    by_cases hs : s = c.id
    · simp [hs]
    · simp [hs, or_assoc]

/-- C5: a successful batch price fetch (one that reached the upstream)
replaces the committed snapshot wholesale: the response payload and the new
cache entry are exactly the normalized upstream response, a symbol has an
entry in the committed snapshot iff it appears in the upstream response, and
a symbol absent from the response — whatever the prior snapshot held for
it — is absent from the committed snapshot. -/
theorem prices_full_snapshot_replacement (cache : Option PricesCache)
    (force : Bool) (now : Int) (data : List UpstreamCoin)
    (h : (pricesGET cache force now (Upstream.success data)).calledUpstream
          = true) :
    pricesGET cache force now (Upstream.success data) =
      ⟨PricesResponse.ok (buildPrices data) false,
       some ⟨buildPrices data, now⟩, true⟩ ∧
    (∀ s, ((buildPrices data).lookup s).isSome = true ↔
        s ∈ data.map UpstreamCoin.id) ∧
    (∀ s, s ∉ data.map UpstreamCoin.id → (buildPrices data).lookup s = none) := by
  have hkeys : ∀ s, ((buildPrices data).lookup s).isSome = true ↔
      s ∈ data.map UpstreamCoin.id := by
    intro s
    rw [buildPrices, buildPrices_foldl_lookup data [] s]
    simp [List.lookup]
  refine ⟨?_, hkeys, ?_⟩
  · rw [pricesGET_called_eq cache force now (Upstream.success data) h]
    rfl
  · intro s hs
    cases ho : (buildPrices data).lookup s with
    | none => rfl
    | some val =>
      exact absurd ((hkeys s).mp (by simp [ho])) hs

/-- Prior server cache holding only an ethereum entry, for the C5 witness. -/
def priorCache : Option PricesCache := some ⟨[("ethereum", ⟨2, 0, 0⟩)], 0⟩

/-- A new upstream batch response containing only bitcoin, for the C5
witness. -/
def newData : List UpstreamCoin := [⟨"bitcoin", some 3, none, none⟩]

/-- The ethereum coin id as a named constant. -/
def ethCoinId : String := "ethereum"

/-- C5 witness: with a prior snapshot containing ethereum and a new response
containing only bitcoin, a forced successful fetch commits a snapshot from
which ethereum is gone. -/
theorem prices_full_snapshot_replacement_witness :
    (pricesGET priorCache true 5 (Upstream.success newData)).calledUpstream
      = true ∧
    pricesGET priorCache true 5 (Upstream.success newData) =
      ⟨PricesResponse.ok (buildPrices newData) false,
       some ⟨buildPrices newData, 5⟩, true⟩ ∧
    (buildPrices newData).lookup ethCoinId = none :=
  ⟨rfl,
    (prices_full_snapshot_replacement priorCache true 5 newData rfl).1,
    (prices_full_snapshot_replacement priorCache true 5 newData rfl).2.2
      ethCoinId (by decide)⟩

/-! ## Sync orchestrator (src/app/page.tsx) -/

/-- A candlestick datum as the chart consumes it, src/app/page.tsx:57-65.
openPrice/highPrice/lowPrice/closePrice model the open/high/low/close fields
(open is a Lean keyword). -/
structure Candle where
  time : Int
  openPrice : ℚ
  highPrice : ℚ
  lowPrice : ℚ
  closePrice : ℚ
deriving DecidableEq, Repr

/-- transformOHLC, src/app/page.tsx:57-65: candle[0]/1000 floored is the
time, candle[1..4] are open/high/low/close (a missing index defaults to 0;
upstream candles always carry five entries). -/
def transformOHLC (ohlc : List (List ℚ)) : List Candle :=
  ohlc.map fun candle =>
    ⟨Int.floor (candle.getD 0 0 / 1000), candle.getD 1 0, candle.getD 2 0,
     candle.getD 3 0, candle.getD 4 0⟩

/-- The Selection Context: the (coin, range) pair a candle fetch was issued
for, and the current one held by selectedCoinRef/timeRangeRef
(src/app/page.tsx:95-96). -/
structure Selection where
  coinId : String
  range : Nat
deriving DecidableEq, Repr

/-- The slice of component state the candle/spinner claims touch. -/
structure UIState where
  chartData : List Candle
  allPrices : PricesMap
  isLoading : Bool
deriving DecidableEq, Repr

/-- fetchOHLC, src/app/page.tsx:237-257 (client side): on a non-2xx status
or an error payload the catch returns null and writes nothing; on an ok
payload the candle array is written to the client freshness store when
nonempty (page.tsx:248-250) and returned. -/
def fetchOHLC_client (store : ClientOHLCStore) (coinId : String) (days : Nat)
    (now : Int) (resp : OHLCResponse) :
    Option (List (List ℚ)) × ClientOHLCStore :=
  match resp with
  | OHLCResponse.ok ohlc _ =>
    if ohlc.length > 0 then
      (some ohlc, saveOHLCToCache store coinId days ohlc now)
    else (some ohlc, store)
  | _ => (none, store)

/-- Which handler issued an in-flight candle fetch. -/
inductive CandleFetchOrigin
  | loadAll
  | coinChange
  | rangeChange
  | manualRefresh
deriving DecidableEq, Repr

/-- The commit step each handler runs when its candle fetch resolves, with
`req` the (coin, range) the fetch was issued for and `cur` the selection at
resolution time:
  - loadAll: src/app/page.tsx:326-328 — commits only when the ohlc list is
    nonempty and both coin and range still match the current selection;
  - coinChange: page.tsx:407-409 and 417-419 — checks the coin only;
  - rangeChange: page.tsx:437-439 and 447-449 — no selection re-check;
  - manualRefresh: page.tsx:460 — no selection re-check. -/
def resolveCandleFetch (origin : CandleFetchOrigin) (req cur : Selection)
    (ohlc : Option (List (List ℚ))) (st : UIState) : UIState :=
  match ohlc with
  | none => st
  | some l =>
    if l.length > 0 then
      match origin with
      | CandleFetchOrigin.loadAll =>
        if req.coinId = cur.coinId ∧ req.range = cur.range then
          { st with chartData := transformOHLC l }
        else st
      | CandleFetchOrigin.coinChange =>
        if req.coinId = cur.coinId then
          { st with chartData := transformOHLC l }
        else st
      | CandleFetchOrigin.rangeChange => { st with chartData := transformOHLC l }
      | CandleFetchOrigin.manualRefresh => { st with chartData := transformOHLC l }
    else st

/-- The selection (bitcoin, 7 days) an abandoned fetch was issued for. -/
def sel7 : Selection := ⟨"bitcoin", 7⟩

/-- The selection (bitcoin, 1 day) current at resolution time. -/
def sel1 : Selection := ⟨"bitcoin", 1⟩

/-- One concrete nonempty candle payload. -/
def sampleOhlc : List (List ℚ) := [[1000, 1, 2, 0, 1]]

/-- The state before the stale fetch resolves. -/
def emptyUI : UIState := ⟨[], [], false⟩

/-- C1 counterexample: a candle fetch issued by handleTimeRangeChange for
(bitcoin, 7d) resolves while the current selection is (bitcoin, 1d); its
handler (src/app/page.tsx:437-439) re-checks nothing and overwrites the
displayed chart state. -/
theorem resolveCandleFetch_rangeChange_ignores_selection :
    sel7 ≠ sel1 ∧
    (resolveCandleFetch CandleFetchOrigin.rangeChange sel7 sel1
        (some sampleOhlc) emptyUI).chartData ≠ emptyUI.chartData := by
  refine ⟨by decide, by decide⟩

/-- C1 (amended): the stale-selection discard holds for loadAllData-issued
candle fetches (both coin and range re-checked) and, on the coin only, for
handleCoinChange-issued fetches; every successful nonempty candle response
is still written to the client freshness store under its own (coin, range)
key.  Fetches issued by handleTimeRangeChange or handleManualRefresh commit
without any selection re-check (see the counterexample). -/
theorem candleFetch_discard_amended :
    (∀ (req cur : Selection) (ohlc : Option (List (List ℚ))) (st : UIState),
       req ≠ cur →
       resolveCandleFetch CandleFetchOrigin.loadAll req cur ohlc st = st) ∧
    (∀ (req cur : Selection) (ohlc : Option (List (List ℚ))) (st : UIState),
       req.coinId ≠ cur.coinId →
       resolveCandleFetch CandleFetchOrigin.coinChange req cur ohlc st = st) ∧
    (∀ (store : ClientOHLCStore) (coinId : String) (days : Nat) (now : Int)
       (l : List (List ℚ)) (s : Bool), 0 < l.length →
       ((fetchOHLC_client store coinId days now (OHLCResponse.ok l s)).2).lookup
           (clientOHLCKey coinId days) = some ⟨l, now⟩) := by
  refine ⟨?_, ?_, ?_⟩
  · intro req cur ohlc st hne
    cases ohlc with
    | none => rfl
    | some l =>
      by_cases hl : l.length > 0
      · have hcond : ¬(req.coinId = cur.coinId ∧ req.range = cur.range) := by
          rintro ⟨h1, h2⟩
          exact hne (by cases req; cases cur; simp_all)
        simp [resolveCandleFetch, hl, hcond]
      · simp [resolveCandleFetch, hl]
  · intro req cur ohlc st hne
    cases ohlc with
    | none => rfl
    | some l =>
      by_cases hl : l.length > 0
      · simp [resolveCandleFetch, hl, hne]
      · simp [resolveCandleFetch, hl]
  · intro store coinId days now l s hl
    simp only [fetchOHLC_client, gt_iff_lt, hl, if_true]
    rw [saveOHLCToCache, lookup_recordSet]
    simp

/-- C1 witness: the amended discard applied to a loadAllData-issued fetch
resolving after the range switched from 7d to 1d — the chart state is left
alone. -/
theorem candleFetch_discard_amended_witness :
    sel7 ≠ sel1 ∧
    resolveCandleFetch CandleFetchOrigin.loadAll sel7 sel1 (some sampleOhlc)
      emptyUI = emptyUI :=
  ⟨by decide,
    candleFetch_discard_amended.1 sel7 sel1 (some sampleOhlc) emptyUI
      (by decide)⟩

/-- The spinner decision of loadAllData, src/app/page.tsx:305-308: show the
blocking indicator only when showLoading was requested and neither the
prices cache nor the ohlc cache held any data. -/
def loadAllData_showSpinner (showLoading : Bool) (pricesData : Option PricesMap)
    (ohlcData : Option (List (List ℚ))) : Bool :=
  showLoading && pricesData.isNone && ohlcData.isNone

/-- The `ohlcCache.data && ohlcCache.data.length > 0` test of
src/app/page.tsx:401 and :431. -/
def ohlcHasData (d : Option (List (List ℚ))) : Bool :=
  match d with
  | some l => decide (l.length > 0)
  | none => false

/-- The ways the load flow is invoked (src/app/page.tsx). -/
inductive LoadFlow
  | initialMount
  | visibilityRegain
  | periodicTimer
  | debounced
  | coinChange
  | rangeChange
  | manualRefresh
deriving DecidableEq, Repr

/-- Whether each invocation of the load flow turns the blocking loading
indicator on, as a function of the cached data visible to it:
  - initialMount: loadAllData(..., true), src/app/page.tsx:385;
  - visibilityRegain: loadAllData(...), page.tsx:171 (showLoading defaults
    to false);
  - periodicTimer: loadAllData(...), page.tsx:196 (showLoading false);
  - debounced: loadAllData(coin, range, !pricesCache.data), page.tsx:376;
  - coinChange: setIsLoading(true) iff the target coin's candle cache is
    absent or empty, page.tsx:401-414;
  - rangeChange: same test for the target range, page.tsx:431-444;
  - manualRefresh: setIsLoading(true) unconditionally, page.tsx:456. -/
def showsSpinner (flow : LoadFlow) (pricesData : Option PricesMap)
    (ohlcData : Option (List (List ℚ))) : Bool :=
  match flow with
  | LoadFlow.initialMount => loadAllData_showSpinner true pricesData ohlcData
  | LoadFlow.visibilityRegain => loadAllData_showSpinner false pricesData ohlcData
  | LoadFlow.periodicTimer => loadAllData_showSpinner false pricesData ohlcData
  | LoadFlow.debounced =>
    loadAllData_showSpinner pricesData.isNone pricesData ohlcData
  | LoadFlow.coinChange => !ohlcHasData ohlcData
  | LoadFlow.rangeChange => !ohlcHasData ohlcData
  | LoadFlow.manualRefresh => true

/-- A concrete cached prices record. -/
def samplePricesMap : PricesMap := [("bitcoin", ⟨50000, 1, 2⟩)]

/-- C9 counterexample: with cached values present for both streams, the
manual-refresh flow still turns the blocking loading indicator on
(src/app/page.tsx:456 sets it unconditionally). -/
theorem manualRefresh_spinner_with_cache :
    (some samplePricesMap ≠ (none : Option PricesMap)) ∧
    (some sampleOhlc ≠ (none : Option (List (List ℚ)))) ∧
    showsSpinner LoadFlow.manualRefresh (some samplePricesMap)
      (some sampleOhlc) = true := by
  refine ⟨by decide, by decide, rfl⟩

/-- C9 (amended): the cold-start-only rule holds for the loadAllData-based
flows (initial mount, visibility regain, periodic timer, debounced switch):
any cached value for either stream suppresses the blocking indicator.  The
coin-change and range-change flows instead show it exactly when the target's
candle cache is absent or empty, ignoring the price cache, and the
manual-refresh flow always shows it. -/
theorem spinner_policy_amended :
    (∀ (p : Option PricesMap) (o : Option (List (List ℚ))) (flow : LoadFlow),
       (flow = LoadFlow.initialMount ∨ flow = LoadFlow.visibilityRegain ∨
        flow = LoadFlow.periodicTimer ∨ flow = LoadFlow.debounced) →
       (p ≠ none ∨ o ≠ none) → showsSpinner flow p o = false) ∧
    (∀ (p : Option PricesMap) (o : Option (List (List ℚ))),
       ohlcHasData o = true →
       showsSpinner LoadFlow.coinChange p o = false ∧
       showsSpinner LoadFlow.rangeChange p o = false) ∧
    (∀ (p : Option PricesMap) (o : Option (List (List ℚ))),
       showsSpinner LoadFlow.coinChange p o = !ohlcHasData o) ∧
    (∀ (p : Option PricesMap) (o : Option (List (List ℚ))),
       showsSpinner LoadFlow.rangeChange p o = !ohlcHasData o) ∧
    (∀ (p : Option PricesMap) (o : Option (List (List ℚ))),
       showsSpinner LoadFlow.manualRefresh p o = true) := by
  refine ⟨?_, ?_, ?_, ?_, ?_⟩
  · rintro p o flow (rfl | rfl | rfl | rfl) hpo <;>
      rcases p with _ | pv <;> rcases o with _ | ov <;>
      simp_all [showsSpinner, loadAllData_showSpinner]
  · intro p o h
    exact ⟨by simp [showsSpinner, h], by simp [showsSpinner, h]⟩
  · intro p o; rfl
  · intro p o; rfl
  · intro p o; rfl

/-- C9 witness: the amended policy applied concretely — an initial mount
with a cached (even stale) prices value shows no blocking indicator. -/
theorem spinner_policy_amended_witness :
    (some samplePricesMap ≠ (none : Option PricesMap) ∨
      (none : Option (List (List ℚ))) ≠ none) ∧
    showsSpinner LoadFlow.initialMount (some samplePricesMap) none = false :=
  ⟨Or.inl (by decide),
    spinner_policy_amended.1 (some samplePricesMap) none LoadFlow.initialMount
      (Or.inl rfl) (Or.inl (by decide))⟩
